import Mathlib

/-
Verification of the no-cloud-sdk storage core: a shallow embedding of the
body-normalization, signed-URL upload and batched-delete logic, together
with theorems settling the specified properties.

Sources embedded (TypeScript):
  src/src/lib/utils.ts      base64 utilities and MIME detection
  src/src/lib/errors.ts     NoCloudAPIErrorV1 (message + status)
  src/unnamed/part_001      NoCloudError codes, NoCloudAPIError.fromStatus
  src/src/lib/resolvers.ts  resolveJsonResponseLib (try/catch variant)
  src/unnamed/part_002      resolveJsonResponsePart002 (fromStatus variant)
  src/src/sdk/storage.ts    getBodyInfo (string branch keeps raw bytes)
  src/unnamed/part_006      Storage.upload / Storage.delete (batched)

Network effects (this.fetch + resolveJsonResponse round trips, and the
direct data-plane fetch) are embedded by explicit environments of type
UploadEnv / DeleteEnv supplying each round trip's outcome, and each
operation additionally returns the ordered trace of data-plane / delete
requests it issued.
-/

/-- JS `Response.ok`: true exactly when the status is in 200..299. -/
def respOk (status : Nat) : Bool := 200 ≤ status && status ≤ 299

/-- Models the JS fallback `m || fallback` on an optional string field:
`undefined` and the empty string are falsy. -/
def jsTruthyOr (m : Option String) (fallback : String) : String :=
  match m with
  | some s => if s = "" then fallback else s
  | none => fallback

/-- Characters removed by JS `String.prototype.trim` (ECMAScript WhiteSpace
and LineTerminator code points). -/
def jsTrimWs (c : Char) : Bool :=
  c = ' ' || c = '\t' || c = '\n' || c = '\r' || c = '\x0b' || c = '\x0c' ||
  c = '\u00A0' || c = '\uFEFF' || c = '\u1680' ||
  ('\u2000' ≤ c && c ≤ '\u200A') || c = '\u2028' || c = '\u2029' ||
  c = '\u202F' || c = '\u205F' || c = '\u3000'

/-- JS `s.trim()`: strips `jsTrimWs` characters from both ends. -/
def jsTrim (s : String) : String :=
  String.mk (((s.data.dropWhile jsTrimWs).reverse.dropWhile jsTrimWs).reverse)

/-- From src/src/lib/utils.ts (lines 157-159):
`mimeType.split(";")[0]?.trim() ?? mimeType`. The first split segment is the
run of characters before the first `;` (it always exists, so the `?? mimeType`
fallback is unreachable). -/
def normalizeMimeType (mimeType : String) : String :=
  jsTrim (String.mk (mimeType.data.takeWhile (fun c => !(c = ';'))))

/-- From src/src/lib/utils.ts (lines 79-89). JS object literals with
non-numeric string keys are iterated by `Object.entries` in insertion order,
so this list order is exactly the iteration order of the source table. -/
def BASE64_SIGNATURES : List (String × String) := [
  ("iVBORw0KGgo", "image/png"),
  ("/9j/", "image/jpeg"),
  ("R0lGOD", "image/gif"),
  ("UklGR", "image/webp"),
  ("AAAA", "video/mp4"),
  ("JVBERi0", "application/pdf"),
  ("UEsDB", "application/zip"),
  ("PD94bWw", "application/xml"),
  ("PHN2Zw", "image/svg+xml")]

/-- Models `str.match(/^data:([^;,]+)/)?.[1]` from detectBase64MimeType
(src/src/lib/utils.ts lines 98-102): after a literal `data:` the capture is
the maximal nonempty run of characters other than `;` and `,`. -/
def dataUrlMime (str : String) : Option String :=
  if "data:".data.isPrefixOf str.data then
    let mt := (str.data.drop 5).takeWhile (fun c => !(c = ';' || c = ','))
    if mt.isEmpty then none else some (String.mk mt)
  else none

/-- The `for (const [prefix, mimeType] of Object.entries(BASE64_SIGNATURES))`
loop of detectBase64MimeType (src/src/lib/utils.ts lines 105-109): returns
the mime of the first table entry whose key is a prefix of the string. -/
def findSignature : List (String × String) → String → Option String
  | [], _ => none
  | (pre, mime) :: rest, str =>
    if pre.data.isPrefixOf str.data then some mime else findSignature rest str

/-- From src/src/lib/utils.ts (lines 97-112): data-URL capture first, then
the magic-byte signature table, else null. -/
def detectBase64MimeType (str : String) : Option String :=
  match dataUrlMime str with
  | some t => some t
  | none => findSignature BASE64_SIGNATURES str

/-- JS line terminators, which `.` does not match in a regex without the `s`
flag. -/
def isJsLineTerminator (c : Char) : Bool :=
  c = '\n' || c = '\r' || c = '\u2028' || c = '\u2029'

/-- Models `str.match(/^data:[^;,]+;base64,(.+)$/)?.[1]` from
extractBase64Data (src/src/lib/utils.ts lines 119-125). The media-type run
`[^;,]+` cannot extend past (or stop before) the first `;` or `,`, so the
match succeeds exactly when the maximal run is nonempty, is followed by the
literal `;base64,`, and the remaining payload is nonempty, free of line
terminators, and reaches the end of the string. -/
def dataUrlBase64Payload (str : String) : Option String :=
  if "data:".data.isPrefixOf str.data then
    let rest := str.data.drop 5
    let mt := rest.takeWhile (fun c => !(c = ';' || c = ','))
    let restAfterMt := rest.drop mt.length
    if mt.isEmpty then none
    else if ";base64,".data.isPrefixOf restAfterMt then
      let payload := restAfterMt.drop 8
      if payload.isEmpty || payload.any isJsLineTerminator then none
      else some (String.mk payload)
    else none
  else none

/-- From src/src/lib/utils.ts (lines 119-125): the captured payload when the
full data-URL pattern matches, otherwise the input unchanged. -/
def extractBase64Data (str : String) : String :=
  match dataUrlBase64Payload str with
  | some payload => payload
  | none => str

/-- Length of the leading run of `=` characters. -/
def leadingEqCount : List Char → Nat
  | [] => 0
  | c :: rest => if c = '=' then leadingEqCount rest + 1 else 0

/-- Length of the trailing run of `=` characters: the length of the match of
the regex `/=+$/` (0 when it does not match). -/
def trailingEqCount (cs : List Char) : Nat := leadingEqCount cs.reverse

/-- From src/src/lib/utils.ts (lines 132-135):
`Math.floor((base64.length * 3) / 4) - padding` where `padding` is the length
of the trailing run of `=`. JS number subtraction can go negative, so the
result is an integer. -/
def getBase64DecodedSize (base64 : String) : Int :=
  ((base64.data.length * 3 / 4 : Nat) : Int) - (trailingEqCount base64.data : Int)

/-- The base64 alphabet, in value order. -/
def base64Alphabet : List Char :=
  "ABCDEFGHIJKLMNOPQRSTUVWXYZabcdefghijklmnopqrstuvwxyz0123456789+/".data

/-- The 6-bit value of a base64 alphabet character, none for any other
character (including `=`). -/
def b64Val (c : Char) : Option Nat :=
  let i := base64Alphabet.indexOf c
  if i < 64 then some i else none

/-- Maps every character to its 6-bit value, failing on the first character
outside the alphabet. -/
def b64Vals : List Char → Option (List Nat)
  | [] => some []
  | c :: rest =>
    match b64Val c, b64Vals rest with
    | some v, some vs => some (v :: vs)
    | _, _ => none

/-- Reassembles 6-bit values into bytes, 4 values to 3 bytes; a final group
of 2 or 3 values yields 1 or 2 bytes (the spare low bits are discarded); a
final group of 1 value is an error (length 1 mod 4). -/
def decodeVals : List Nat → Option (List Nat)
  | [] => some []
  | [_] => none
  | [a, b] => some [a * 4 + b / 16]
  | [a, b, c] => some [a * 4 + b / 16, b % 16 * 16 + c / 4]
  | a :: b :: c :: d :: rest =>
    (decodeVals rest).map
      (fun bs => (a * 4 + b / 16) :: (b % 16 * 16 + c / 4) :: (c % 4 * 64 + d) :: bs)

/-- ASCII whitespace removed by the first step of forgiving-base64 decoding. -/
def isAsciiWs (c : Char) : Bool :=
  c = '\t' || c = '\n' || c = '\x0c' || c = '\r' || c = ' '

/-- WHATWG forgiving-base64 decoding after whitespace removal: if the length
is a multiple of 4, strip up to two trailing `=`; fail when the remaining
length is 1 mod 4 or any remaining character is outside the alphabet;
otherwise decode. -/
def atobForgiving (data : List Char) : Option (List Nat) :=
  let padStrip := if data.length % 4 = 0 then min (trailingEqCount data) 2 else 0
  let body := data.take (data.length - padStrip)
  match b64Vals body with
  | some vals => decodeVals vals
  | none => none

/-- From src/src/lib/utils.ts (lines 142-149): `atob(base64)` followed by
reading each code unit of the binary string into a byte array, so the result
is exactly the decoded byte sequence. `atob` is the host's WHATWG
forgiving-base64 decoder: remove ASCII whitespace, then forgiving-decode.
Failure models the InvalidCharacterError that `atob` throws. -/
def decodeBase64 (base64 : String) : Option (List Nat) :=
  atobForgiving (base64.data.filter (fun c => !(isAsciiWs c)))

/-- Error codes from src/unnamed/part_001 (enum NoCloudError). -/
inductive NoCloudError
  | INVALID_API_KEY
  | BAD_REQUEST
  | RATE_LIMIT_EXCEEDED
  | RESOURCE_NOT_FOUND
  | INTERNAL_SERVER_ERROR
  | UNKNOWN_ERROR
  deriving DecidableEq, Repr

/-- Error class from src/unnamed/part_001: message, HTTP status and coarse
code. -/
structure NoCloudAPIError where
  message : String
  status : Nat
  code : NoCloudError
  deriving DecidableEq, Repr

/-- NoCloudAPIError.fromStatus from src/unnamed/part_001 (lines 74-105):
derives the coarse code from the HTTP status, keeping message and status. -/
def NoCloudAPIError.fromStatus (status : Nat) (message : String) : NoCloudAPIError :=
  match status with
  | 400 => ⟨message, status, .BAD_REQUEST⟩
  | 401 => ⟨message, status, .INVALID_API_KEY⟩
  | 429 => ⟨message, status, .RATE_LIMIT_EXCEEDED⟩
  | 404 => ⟨message, status, .RESOURCE_NOT_FOUND⟩
  | 500 => ⟨message, status, .INTERNAL_SERVER_ERROR⟩
  | _ => ⟨message, status, .UNKNOWN_ERROR⟩

/-- Error class from src/src/lib/errors.ts: message and HTTP status only (no
code field in that version). -/
structure NoCloudAPIErrorV1 where
  message : String
  status : Nat
  deriving DecidableEq, Repr

/-- Outcome of `await response.json()` collapsed to what the resolvers read:
either the parse rejected, or it produced a value whose (optional, string)
`message` field is recorded. -/
inductive JsonOutcome
  | failure
  | value (message : Option String)
  deriving DecidableEq, Repr

/-- A raw HTTP response as observed by the embedded code: status, the JSON
parse outcome of the body, the body text (none when reading it rejects), and
the status reason phrase. -/
structure WebResponse where
  status : Nat
  jsonBody : JsonOutcome
  bodyText : Option String
  statusText : String
  deriving DecidableEq, Repr

/-- What the try block of resolveJsonResponse in src/src/lib/resolvers.ts
throws on a non-2xx response: the json() rejection, or the NoCloudAPIError
built from the parsed message (`err.message || "API Error"`). -/
inductive ThrownInTry
  | parseError
  | api (e : NoCloudAPIErrorV1)
  deriving DecidableEq, Repr

/-- The try block of resolveJsonResponse (src/src/lib/resolvers.ts lines
11-14) always ends in a throw. -/
def libTryBlock (r : WebResponse) : ThrownInTry :=
  match r.jsonBody with
  | .failure => .parseError
  | .value m => .api ⟨jsTruthyOr m "API Error", r.status⟩

/-- resolveJsonResponse from src/src/lib/resolvers.ts (lines 9-21). The
catch block receives every value thrown inside the try block — including the
NoCloudAPIError the try block itself throws — and replaces it with
`new NoCloudAPIError("Unknown error", response.status)`. -/
def resolveJsonResponseLib (r : WebResponse) : Except NoCloudAPIErrorV1 JsonOutcome :=
  if respOk r.status then .ok r.jsonBody
  else
    match libTryBlock r with
    | .parseError => .error ⟨"Unknown error", r.status⟩
    | .api _ => .error ⟨"Unknown error", r.status⟩

/-- resolveJsonResponse from src/unnamed/part_002 (lines 9-21):
`await response.json().catch(() => ({}))` yields an object with no message
on parse failure, then
`NoCloudAPIError.fromStatus(status, err.message || "Unknown error")`
is thrown. -/
def resolveJsonResponsePart002 (r : WebResponse) : Except NoCloudAPIError JsonOutcome :=
  if respOk r.status then .ok r.jsonBody
  else
    let errMessage : Option String :=
      match r.jsonBody with
      | .failure => none
      | .value m => m
    .error (NoCloudAPIError.fromStatus r.status (jsTruthyOr errMessage "Unknown error"))

/-- A binary-blob handle: its declared MIME type and declared byte length. -/
structure BlobHandle where
  type : String
  size : Nat
  deriving DecidableEq, Repr

/-- The FileBody union (Blob | ArrayBuffer | string) as a closed sum. -/
inductive FileBody
  | blob (b : BlobHandle)
  | arrayBuffer (byteLength : Nat)
  | str (s : String)
  deriving DecidableEq, Repr

/-- The normalized payload produced by getBodyInfo: the blob handle itself,
the buffer itself, or a materialized byte sequence. -/
inductive NormalizedBody
  | blobRef (b : BlobHandle)
  | bufferRef (byteLength : Nat)
  | bytes (data : List Nat)
  deriving DecidableEq, Repr

/-- The record returned by getBodyInfo. -/
structure BodyInfo where
  contentType : String
  size : Nat
  normalizedBody : NormalizedBody
  deriving DecidableEq, Repr

/-- Failures of the SDK storage operations: a thrown NoCloudAPIError, or the
InvalidCharacterError that `atob` throws on non-base64 input (which is not a
NoCloudAPIError and propagates as-is). -/
inductive SdkFailure
  | api (e : NoCloudAPIError)
  | atobThrew
  deriving DecidableEq, Repr

/-- UTF-8 encoding of one character (what `new TextEncoder().encode`
produces per character). -/
def utf8EncodeCharNat (c : Char) : List Nat :=
  let n := c.toNat
  if n < 0x80 then [n]
  else if n < 0x800 then
    [0xC0 ||| (n >>> 6), 0x80 ||| (n &&& 0x3F)]
  else if n < 0x10000 then
    [0xE0 ||| (n >>> 12), 0x80 ||| ((n >>> 6) &&& 0x3F), 0x80 ||| (n &&& 0x3F)]
  else
    [0xF0 ||| (n >>> 18), 0x80 ||| ((n >>> 12) &&& 0x3F),
     0x80 ||| ((n >>> 6) &&& 0x3F), 0x80 ||| (n &&& 0x3F)]

/-- UTF-8 byte sequence of a string: `new TextEncoder().encode(body)`. -/
def utf8Bytes (s : String) : List Nat :=
  (s.data.map utf8EncodeCharNat).flatten

/-- Storage.getBodyInfo from src/src/sdk/storage.ts (lines 48-87): blob
branch (normalized declared type with the JS `|| "application/octet-stream"`
fallback for a falsy result, declared size, the handle itself); buffer
branch; string branch (MIME detection, then base64 decoding of the extracted
payload, else plain text as UTF-8). The FileBody sum is closed, so the final
`throw new NoCloudAPIError("Unsupported body type", 400)` branch for other
input variants has no inhabitant here. -/
def getBodyInfo (body : FileBody) : Except SdkFailure BodyInfo :=
  match body with
  | .blob b =>
    let ct := normalizeMimeType b.type
    .ok ⟨if ct = "" then "application/octet-stream" else ct, b.size, .blobRef b⟩
  | .arrayBuffer n => .ok ⟨"application/octet-stream", n, .bufferRef n⟩
  | .str s =>
    match detectBase64MimeType s with
    | some detectedType =>
      match decodeBase64 (extractBase64Data s) with
      | some decoded => .ok ⟨detectedType, decoded.length, .bytes decoded⟩
      | none => .error .atobThrew
    | none =>
      let encoded := utf8Bytes s
      .ok ⟨"text/plain", encoded.length, .bytes encoded⟩

/-- A data-plane HTTP request as built by Storage.upload. -/
structure HttpRequest where
  method : String
  url : String
  headers : List (String × String)
  body : NormalizedBody
  deriving DecidableEq, Repr

/-- SignedUrlResponse from src/unnamed/part_004. -/
structure SignedUrlResponse where
  url : String
  expiresAt : String
  mediaId : String
  mediaUrl : String
  deriving DecidableEq, Repr

/-- UploadResponse from src/unnamed/part_004. -/
structure UploadResponse where
  id : String
  url : String
  deriving DecidableEq, Repr

/-- Environment for Storage.upload. `signedUrl contentType size` is the
outcome of the control-plane round trip `generateSignedUrl(contentType,
size, metadata)` — the authenticated `this.fetch` followed by
resolveJsonResponse — as a typed result (the source encodes only contentType
and size into the request; metadata is accepted but never sent). `dataPlane`
gives the response of the direct global `fetch` of a request. -/
structure UploadEnv where
  signedUrl : String → Nat → Except NoCloudAPIError SignedUrlResponse
  dataPlane : HttpRequest → WebResponse

/-- The single data-plane PUT built by Storage.upload (src/unnamed/part_006
lines 107-113): method PUT, the signed URL, exactly one header
`Content-Length: size.toString()` (the global fetch adds no Authorization
header), and the normalized payload as body. -/
def mkPutRequest (url : String) (size : Nat) (body : NormalizedBody) : HttpRequest :=
  { method := "PUT", url := url, headers := [("Content-Length", toString size)], body := body }

/-- Storage.upload from src/unnamed/part_006 (lines 96-126): inspect, sign,
one data-plane PUT; on `!uploadResponse.ok` throw
`NoCloudAPIError.fromStatus(status, "Failed to upload file to R2: " + errorText)`
where errorText is the response text, falling back to the statusText when
reading the body rejects; on success return `{id: mediaId, url: mediaUrl}`
from the signed-URL response. The second component is the ordered trace of
data-plane requests issued. -/
def upload (env : UploadEnv) (body : FileBody) :
    Except SdkFailure UploadResponse × List HttpRequest :=
  match getBodyInfo body with
  | .error e => (.error e, [])
  | .ok info =>
    match env.signedUrl info.contentType info.size with
    | .error e => (.error (.api e), [])
    | .ok sur =>
      let req := mkPutRequest sur.url info.size info.normalizedBody
      let resp := env.dataPlane req
      if respOk resp.status then
        (.ok { id := sur.mediaId, url := sur.mediaUrl }, [req])
      else
        (.error (.api (NoCloudAPIError.fromStatus resp.status
          ("Failed to upload file to R2: " ++ (resp.bodyText.getD resp.statusText)))), [req])

/-- One wire call issued by Storage.delete: the single-id DELETE or a
bulk-delete request with a batch of ids. -/
inductive DeleteCall
  | single (id : String)
  | bulk (ids : List String)
  deriving DecidableEq, Repr

/-- Environment for Storage.delete: outcome of a single-id DELETE round trip
and of a bulk-delete round trip (each being `this.fetch` followed by
resolveJsonResponse). -/
structure DeleteEnv where
  single : String → Except NoCloudAPIError Unit
  bulk : List String → Except NoCloudAPIError Unit

/-- BATCH_SIZE from src/unnamed/part_006 (line 195). -/
def BATCH_SIZE : Nat := 100

/-- The batch partition computed by the loop of Storage.delete
(src/unnamed/part_006 lines 196-201): `Math.ceil(n / 100)` batches, batch i
being `ids.slice(i * 100, Math.min(i * 100 + 100, n))`. -/
def toBatches (ids : List String) : List (List String) :=
  (List.range ((ids.length + BATCH_SIZE - 1) / BATCH_SIZE)).map (fun i =>
    let start := i * BATCH_SIZE
    let stop := min (start + BATCH_SIZE) ids.length
    (ids.drop start).take (stop - start))

/-- The sequential await-each loop of Storage.delete over the batches: each
bulk request is awaited before the next starts, and a failed batch aborts
the loop by throwing. Returns the outcome and the ordered trace of issued
calls. -/
def runBatches (env : DeleteEnv) : List (List String) → Except NoCloudAPIError Unit × List DeleteCall
  | [] => (.ok (), [])
  | b :: rest =>
    match env.bulk b with
    | .error e => (.error e, [DeleteCall.bulk b])
    | .ok _ =>
      let r := runBatches env rest
      (r.fst, DeleteCall.bulk b :: r.snd)

/-- The single-id path of Storage.delete (src/unnamed/part_006 lines
178-185): one DELETE call, resolved. -/
def deleteSingleRun (env : DeleteEnv) (mid : String) : Except NoCloudAPIError Unit × List DeleteCall :=
  (env.single mid, [DeleteCall.single mid])

/-- Storage.delete from src/unnamed/part_006 (lines 177-212): a bare id
takes the single-id path; an empty array returns without any call; a
one-element array delegates to the single-id path
(`return this.delete(mediaId[0]!)`); otherwise the batch loop runs. -/
def deleteOp (env : DeleteEnv) (mediaId : String ⊕ List String) :
    Except NoCloudAPIError Unit × List DeleteCall :=
  match mediaId with
  | .inl mid => deleteSingleRun env mid
  | .inr [] => (.ok (), [])
  | .inr [x] => deleteSingleRun env x
  | .inr ids => runBatches env (toBatches ids)

/-- Concrete signed-URL grant used to exercise the happy upload path. -/
def c2Sur : SignedUrlResponse :=
  ⟨"https://store/x", "2025-01-01T00:00:00Z", "m1", "https://cdn/m1"⟩

/-- Concrete upload environment whose control plane always grants c2Sur and
whose data plane always answers 200. -/
def c2Env : UploadEnv :=
  { signedUrl := fun _ _ => .ok c2Sur,
    dataPlane := fun _ => ⟨200, .value none, some "", "OK"⟩ }

/-- Concrete blob input for the happy upload path. -/
def c2Blob : BlobHandle := ⟨"text/plain", 15⟩

/-- Body info of c2Blob. -/
def c2Info : BodyInfo := ⟨"text/plain", 15, .blobRef c2Blob⟩

/-- Concrete signed-URL grant used to exercise the failing PUT path. -/
def c6Sur : SignedUrlResponse :=
  ⟨"https://store/y", "2025-01-01T00:00:00Z", "m2", "https://cdn/m2"⟩

/-- Concrete upload environment whose control plane succeeds and whose data
plane always answers 500 with body text boom. -/
def c6Env : UploadEnv :=
  { signedUrl := fun _ _ => .ok c6Sur,
    dataPlane := fun _ => ⟨500, .failure, some "boom", "Internal Server Error"⟩ }

/-- Concrete blob input for the failing PUT path. -/
def c6Blob : BlobHandle := ⟨"image/png", 70⟩

/-- Body info of c6Blob. -/
def c6Info : BodyInfo := ⟨"image/png", 70, .blobRef c6Blob⟩

/-- Delete environment in which every wire call succeeds. -/
def c3Env : DeleteEnv := { single := fun _ => .ok (), bulk := fun _ => .ok () }

/-- Collection of 250 ids. -/
def c3Ids : List String := List.replicate 250 "m"

/-- Error carried by the failing bulk batch in the fail-fast scenario. -/
def c7Err : NoCloudAPIError := ⟨"batch failed", 500, .INTERNAL_SERVER_ERROR⟩

/-- Delete environment whose bulk endpoint rejects exactly the 50-element
batch (the third batch of a 250-id collection) with c7Err. -/
def c7Env : DeleteEnv :=
  { single := fun _ => .ok (),
    bulk := fun ids => if ids.length = 50 then .error c7Err else .ok () }

/-- Collection of 250 ids for the fail-fast scenario. -/
def c7Ids : List String := List.replicate 250 "d"

/-- Rebuilding a string from its character list is the identity. -/
theorem string_mk_data (s : String) : String.mk s.data = s := by
  cases s
  rfl

/-- The padding character has no base64 value. -/
theorem b64Val_pad_none : b64Val '=' = none := by decide

/-- Successful alphabet mapping preserves length. -/
theorem b64Vals_length : ∀ (cs : List Char) (vs : List Nat),
    b64Vals cs = some vs → vs.length = cs.length := by
  intro cs
  induction cs with
  | nil =>
    intro vs h
    simp only [b64Vals, Option.some_inj] at h
    subst h
    rfl
  | cons c rest ih =>
    intro vs h
    simp only [b64Vals] at h
    cases hv : b64Val c with
    | none => rw [hv] at h; simp at h
    | some v =>
      cases hr : b64Vals rest with
      | none => rw [hv, hr] at h; simp at h
      | some tl =>
        rw [hv, hr] at h
        simp only [Option.some_inj] at h
        subst h
        simp [ih tl hr]

/-- A list that maps successfully contains no padding character. -/
theorem b64Vals_pad_notMem : ∀ (cs : List Char) (vs : List Nat),
    b64Vals cs = some vs → '=' ∉ cs := by
  intro cs
  induction cs with
  | nil => intro vs _ hmem; simp at hmem
  | cons c rest ih =>
    intro vs h hmem
    simp only [b64Vals] at h
    cases hv : b64Val c with
    | none => rw [hv] at h; simp at h
    | some v =>
      cases hr : b64Vals rest with
      | none => rw [hv, hr] at h; simp at h
      | some tl =>
        rcases List.mem_cons.mp hmem with hc | hc
        · subst hc
          rw [b64Val_pad_none] at hv
          exact Option.noConfusion hv
        · exact ih tl hr hc

/-- Successful bit reassembly: the input length is not 1 mod 4 and the
output length is input length times 3 divided by 4, rounded down. -/
theorem decodeVals_length : ∀ (vals bs : List Nat), decodeVals vals = some bs →
    vals.length % 4 ≠ 1 ∧ bs.length = vals.length * 3 / 4 := by
  intro vals
  induction vals using decodeVals.induct with
  | case1 =>
    intro bs h
    simp only [decodeVals, Option.some_inj] at h
    subst h
    simp
  | case2 => intro bs h; simp [decodeVals] at h
  | case3 a b =>
    intro bs h
    simp only [decodeVals, Option.some_inj] at h
    subst h
    simp
  | case4 a b c =>
    intro bs h
    simp only [decodeVals, Option.some_inj] at h
    subst h
    simp
  | case5 a b c d rest ih =>
    intro bs h
    simp only [decodeVals] at h
    cases hr : decodeVals rest with
    | none => rw [hr] at h; simp at h
    | some tl =>
      rw [hr] at h
      simp only [Option.map_some', Option.some_inj] at h
      obtain ⟨h1, h2⟩ := ih tl hr
      subst h
      simp only [List.length_cons]
      omega

/-- The leading run of padding is no longer than the list. -/
theorem leadingEqCount_le (l : List Char) : leadingEqCount l ≤ l.length := by
  induction l with
  | nil => simp [leadingEqCount]
  | cons c rest ih =>
    simp only [leadingEqCount, List.length_cons]
    split
    · omega
    · omega

/-- Counting the leading run after prepending padding. -/
theorem leadingEqCount_replicate_append (k : Nat) (ys : List Char) :
    leadingEqCount (List.replicate k '=' ++ ys) = k + leadingEqCount ys := by
  induction k with
  | zero => simp
  | succ k ih =>
    rw [List.replicate_succ, List.cons_append]
    show (if ('=' : Char) = '=' then leadingEqCount (List.replicate k '=' ++ ys) + 1 else 0) = _
    rw [if_pos rfl, ih]
    omega

/-- Lists without padding have no leading padding run. -/
theorem leadingEqCount_eq_zero (l : List Char) (h : '=' ∉ l) : leadingEqCount l = 0 := by
  cases l with
  | nil => rfl
  | cons c rest =>
    have hc : ¬(c = '=') := fun hc => h (hc ▸ List.mem_cons_self c rest)
    simp [leadingEqCount, hc]

/-- Any prefix within the leading padding run is all padding. -/
theorem take_leadingEq : ∀ (l : List Char) (k : Nat), k ≤ leadingEqCount l →
    l.take k = List.replicate k '=' := by
  intro l
  induction l with
  | nil =>
    intro k hk
    simp only [leadingEqCount, Nat.le_zero] at hk
    subst hk
    rfl
  | cons c rest ih =>
    intro k hk
    cases k with
    | zero => rfl
    | succ k =>
      simp only [leadingEqCount] at hk
      by_cases hc : c = '='
      · rw [if_pos hc] at hk
        subst hc
        simp only [List.take_succ_cons, List.replicate_succ]
        rw [ih k (by omega)]
      · rw [if_neg hc] at hk
        omega

/-- Taking all but the last p elements and reversing equals dropping p from
the reverse. -/
theorem reverse_take_sub (cs : List Char) (p : Nat) (hp : p ≤ cs.length) :
    (cs.take (cs.length - p)).reverse = cs.reverse.drop p := by
  have key : ∀ (A B : List Char), A.length = p → (A ++ B).drop p = B := by
    intro A B hA
    rw [← hA, List.drop_left]
  have hsplit : cs.reverse = (cs.drop (cs.length - p)).reverse ++ (cs.take (cs.length - p)).reverse := by
    rw [← List.reverse_append, List.take_append_drop]
  have hlen : (cs.drop (cs.length - p)).reverse.length = p := by
    rw [List.length_reverse, List.length_drop]
    omega
  rw [hsplit, key _ _ hlen]

/-- If stripping p trailing characters (with p within the trailing padding
run) leaves no padding at all, the trailing run has length exactly p. -/
theorem trailingEqCount_of_strip (cs : List Char) (p : Nat)
    (hple : p ≤ trailingEqCount cs)
    (hmem : '=' ∉ cs.take (cs.length - p)) : trailingEqCount cs = p := by
  have hpl : p ≤ cs.length := by
    have := leadingEqCount_le cs.reverse
    rw [List.length_reverse] at this
    exact le_trans hple this
  have hrev := reverse_take_sub cs p hpl
  have hmem2 : '=' ∉ cs.reverse.drop p := by
    rw [← hrev]
    intro hc
    exact hmem (List.mem_reverse.mp hc)
  have h0 : leadingEqCount (cs.reverse.drop p) = 0 := leadingEqCount_eq_zero _ hmem2
  have htake : cs.reverse.take p = List.replicate p '=' := take_leadingEq _ p hple
  calc trailingEqCount cs
      = leadingEqCount (cs.reverse.take p ++ cs.reverse.drop p) := by
        rw [List.take_append_drop]; rfl
    _ = p + leadingEqCount (cs.reverse.drop p) := by
        rw [htake, leadingEqCount_replicate_append]
    _ = p := by rw [h0]; omega

/-- Size identity at the list level: a successful forgiving decode produces
exactly length times 3 over 4 minus the trailing padding many bytes. -/
theorem atobForgiving_size (cs : List Char) (bs : List Nat)
    (h : atobForgiving cs = some bs) :
    ((cs.length * 3 / 4 : Nat) : Int) - (trailingEqCount cs : Int) = (bs.length : Int) := by
  by_cases hn : cs.length % 4 = 0
  · simp only [atobForgiving, hn, if_true, if_pos] at h
    cases hb : b64Vals (cs.take (cs.length - min (trailingEqCount cs) 2)) with
    | none => rw [hb] at h; simp at h
    | some vals =>
      rw [hb] at h
      have hlen : vals.length = (cs.take (cs.length - min (trailingEqCount cs) 2)).length :=
        b64Vals_length _ _ hb
      have hmem := b64Vals_pad_notMem _ _ hb
      have hpc : trailingEqCount cs = min (trailingEqCount cs) 2 :=
        trailingEqCount_of_strip cs _ (min_le_left _ _) hmem
      have hdl := decodeVals_length vals bs h
      rw [List.length_take] at hlen
      have h2 : trailingEqCount cs ≤ 2 := by omega
      have hpn : trailingEqCount cs ≤ cs.length := by
        have := leadingEqCount_le cs.reverse
        rw [List.length_reverse] at this
        exact this
      rw [Nat.min_eq_left h2] at hlen
      have hvl : vals.length = cs.length - trailingEqCount cs := by omega
      obtain ⟨hd1, hd2⟩ := hdl
      omega
  · simp only [atobForgiving, hn, if_false, if_neg] at h
    rw [Nat.sub_zero, List.take_length] at h
    cases hb : b64Vals cs with
    | none => rw [hb] at h; simp at h
    | some vals =>
      rw [hb] at h
      have hlen : vals.length = cs.length := b64Vals_length _ _ hb
      have hmem := b64Vals_pad_notMem _ _ hb
      have hpc : trailingEqCount cs = 0 :=
        leadingEqCount_eq_zero _ (fun hc => hmem (List.mem_reverse.mp hc))
      have hdl := decodeVals_length vals bs h
      obtain ⟨hd1, hd2⟩ := hdl
      omega

/-- C1. For every valid base64 string (raw payload, free of the whitespace
that forgiving decoding would otherwise remove) that decodeBase64 accepts —
which covers exactly the well-formed payloads with 0, 1 or 2 trailing `=`
padding characters — the computed size getBase64DecodedSize, namely
floor(length times 3 over 4) minus the number of trailing `=`, equals the
length of the decoded byte buffer. -/
theorem getBase64DecodedSize_eq_decode_length (s : String)
    (hws : ∀ c ∈ s.data, isAsciiWs c = false) (bs : List Nat)
    (h : decodeBase64 s = some bs) : getBase64DecodedSize s = (bs.length : Int) := by
  have hf : s.data.filter (fun c => !(isAsciiWs c)) = s.data :=
    List.filter_eq_self.mpr (fun a ha => by rw [hws a ha]; rfl)
  rw [decodeBase64, hf] at h
  rw [getBase64DecodedSize]
  exact atobForgiving_size s.data bs h

/-- Witness for C1 at the concrete two-padding input TQ==, which decodes to
the single byte 77 and whose computed size is 1. -/
theorem getBase64DecodedSize_eq_decode_length_witness :
    (∀ c ∈ "TQ==".data, isAsciiWs c = false) ∧
    decodeBase64 "TQ==" = some [77] ∧
    getBase64DecodedSize "TQ==" = (([77] : List Nat).length : Int) :=
  ⟨by decide, by decide,
    getBase64DecodedSize_eq_decode_length "TQ==" (by decide) [77] (by decide)⟩

/-- C5. The resolver in src/src/lib/resolvers.ts does not surface the parsed
message: its throw statement sits inside its own try block, so the catch
replaces the NoCloudAPIError carrying the message with one carrying
"Unknown error". At a 404 response whose body parses as JSON with message
"Media not found", that resolver raises message "Unknown error" (the claim
requires "Media not found"), while the resolver variant of
src/unnamed/part_002 raises exactly the parsed message together with the
status-derived code, as the claim describes. Both carry status 404. -/
theorem resolver_message_swallowed :
    resolveJsonResponseLib ⟨404, .value (some "Media not found"), none, "Not Found"⟩ =
      .error ⟨"Unknown error", 404⟩ ∧
    resolveJsonResponsePart002 ⟨404, .value (some "Media not found"), none, "Not Found"⟩ =
      .error ⟨"Media not found", 404, .RESOURCE_NOT_FOUND⟩ :=
  ⟨rfl, rfl⟩

/-- C4 counterexample. The signature table is iterated in declaration order,
whose key lengths are 11, 4, 6, 5, 4, 7, 5, 7, 6 — not sorted longest
first (the 4-character key at position 1 precedes the 6-character key at
position 2), so the table is not tested longest/most-specific prefixes
first as claimed. -/
theorem signatures_not_longest_first :
    (BASE64_SIGNATURES.map (fun pr => pr.1.length)) = [11, 4, 6, 5, 4, 7, 5, 7, 6] ∧
    ¬ List.Sorted (fun a b => a ≥ b) (BASE64_SIGNATURES.map (fun pr => pr.1.length)) := by
  exact ⟨rfl, by decide⟩

/-- C4 amended. The table is iterated in fixed declaration order, which is
not sorted by descending key length; nevertheless no signature is shadowed
by an earlier entry, because no signature key is a prefix of another: every
table entry, presented with its own key, is detected as exactly its own
MIME type. -/
theorem signatures_no_shadowing :
    ∀ entry ∈ BASE64_SIGNATURES, detectBase64MimeType entry.1 = some entry.2 := by
  decide

/-- Witness for C4 at the loose 4-character entry: AAAA is a table member
and detection on it yields video/mp4. -/
theorem signatures_no_shadowing_witness :
    (("AAAA", "video/mp4") ∈ BASE64_SIGNATURES) ∧
    detectBase64MimeType "AAAA" = some "video/mp4" :=
  ⟨by decide, signatures_no_shadowing ("AAAA", "video/mp4") (by decide)⟩

/-- C8 counterexample. A blob whose declared type is the empty string is
inspected to contentType application/octet-stream, while its declared type
with parameters stripped is the empty string, so the inspected contentType
is not the stripped declared type. -/
theorem blob_empty_type_counterexample :
    getBodyInfo (FileBody.blob ⟨"", 5⟩) =
      .ok ⟨"application/octet-stream", 5, .blobRef ⟨"", 5⟩⟩ ∧
    normalizeMimeType "" = "" ∧
    ¬ ("application/octet-stream" = normalizeMimeType "") :=
  ⟨rfl, rfl, by decide⟩

/-- C8 amended. For every binary-blob input whose declared type normalizes
(parameters such as charset stripped, surrounding whitespace trimmed) to a
nonempty string, body inspection returns that normalized type as
contentType, the declared byte length as size, and the blob handle itself —
not a materialized copy — as the normalized payload; when the normalized
type is empty the contentType falls back to application/octet-stream
(as the counterexample shows). -/
theorem blob_bodyInfo (b : BlobHandle) (h : ¬ (normalizeMimeType b.type = "")) :
    getBodyInfo (FileBody.blob b) =
      .ok ⟨normalizeMimeType b.type, b.size, .blobRef b⟩ := by
  simp only [getBodyInfo, if_neg h]

/-- Witness for C8 at a blob declaring a parameterized type: the charset
parameter is stripped and the handle itself is passed through. -/
theorem blob_bodyInfo_witness :
    ¬ (normalizeMimeType "text/plain;charset=utf-8" = "") ∧
    getBodyInfo (FileBody.blob ⟨"text/plain;charset=utf-8", 15⟩) =
      .ok ⟨normalizeMimeType "text/plain;charset=utf-8", 15,
        .blobRef ⟨"text/plain;charset=utf-8", 15⟩⟩ ∧
    normalizeMimeType "text/plain;charset=utf-8" = "text/plain" :=
  ⟨by decide, blob_bodyInfo ⟨"text/plain;charset=utf-8", 15⟩ (by decide), by decide⟩

/-- C2. Whenever body inspection succeeds, the signed-URL request succeeds
with grant sur, and the single data-plane PUT of the normalized payload gets
a 2xx response, upload issues exactly that one PUT — whose headers consist
of a content-length equal to the inspected size and contain no Authorization
header — and returns exactly the mediaId and mediaUrl of the signed-URL
response, independently of the PUT response body. -/
theorem upload_happyPath (env : UploadEnv) (body : FileBody) (info : BodyInfo)
    (sur : SignedUrlResponse)
    (h1 : getBodyInfo body = .ok info)
    (h2 : env.signedUrl info.contentType info.size = .ok sur)
    (h3 : respOk (env.dataPlane (mkPutRequest sur.url info.size info.normalizedBody)).status = true) :
    upload env body = (.ok ⟨sur.mediaId, sur.mediaUrl⟩,
        [mkPutRequest sur.url info.size info.normalizedBody]) ∧
    (mkPutRequest sur.url info.size info.normalizedBody).headers =
        [("Content-Length", toString info.size)] ∧
    ((mkPutRequest sur.url info.size info.normalizedBody).headers.all
        (fun kv => kv.fst != "Authorization")) = true := by
  refine ⟨?_, rfl, by simp [mkPutRequest]⟩
  simp only [upload, h1, h2, h3, if_true]

/-- Witness for C2 at the concrete happy-path scenario: a text/plain blob of
15 bytes, the c2Sur grant and an always-200 data plane give back the id m1
and url of the grant. -/
theorem upload_happyPath_witness :
    getBodyInfo (FileBody.blob c2Blob) = .ok c2Info ∧
    c2Env.signedUrl c2Info.contentType c2Info.size = .ok c2Sur ∧
    respOk (c2Env.dataPlane (mkPutRequest c2Sur.url c2Info.size c2Info.normalizedBody)).status = true ∧
    upload c2Env (FileBody.blob c2Blob) =
      (.ok ⟨c2Sur.mediaId, c2Sur.mediaUrl⟩,
        [mkPutRequest c2Sur.url c2Info.size c2Info.normalizedBody]) :=
  ⟨rfl, rfl, rfl,
    (upload_happyPath c2Env (FileBody.blob c2Blob) c2Info c2Sur rfl rfl rfl).1⟩

/-- C6. Whenever body inspection and the signed-URL request succeed but the
data-plane PUT response has a non-2xx status, upload fails with the
upload-failure error built by NoCloudAPIError.fromStatus from the PUT
status and the message prefix Failed to upload file to R2 followed by the
best-effort body text (falling back to the statusText reason phrase), after
having issued exactly that one PUT; and fromStatus always carries exactly
the status and message it is given, so the raised error carries the
object-store status, distinguishing it from any control-plane error of the
(successful) signed-URL step. -/
theorem upload_putFailure (env : UploadEnv) (body : FileBody) (info : BodyInfo)
    (sur : SignedUrlResponse)
    (h1 : getBodyInfo body = .ok info)
    (h2 : env.signedUrl info.contentType info.size = .ok sur)
    (h3 : respOk (env.dataPlane (mkPutRequest sur.url info.size info.normalizedBody)).status = false) :
    upload env body =
      (.error (.api (NoCloudAPIError.fromStatus
          (env.dataPlane (mkPutRequest sur.url info.size info.normalizedBody)).status
          ("Failed to upload file to R2: " ++
            ((env.dataPlane (mkPutRequest sur.url info.size info.normalizedBody)).bodyText.getD
              (env.dataPlane (mkPutRequest sur.url info.size info.normalizedBody)).statusText)))),
        [mkPutRequest sur.url info.size info.normalizedBody]) ∧
    ∀ st m, (NoCloudAPIError.fromStatus st m).status = st ∧
      (NoCloudAPIError.fromStatus st m).message = m := by
  constructor
  · simp [upload, h1, h2, h3]
  · intro st m
    unfold NoCloudAPIError.fromStatus
    split <;> exact ⟨rfl, rfl⟩

/-- Witness for C6 at the concrete failing-PUT scenario: the control plane
grants c6Sur, the data plane answers 500 with body text boom, and upload
fails with the fromStatus error at status 500 and the prefixed message. -/
theorem upload_putFailure_witness :
    getBodyInfo (FileBody.blob c6Blob) = .ok c6Info ∧
    c6Env.signedUrl c6Info.contentType c6Info.size = .ok c6Sur ∧
    respOk (c6Env.dataPlane (mkPutRequest c6Sur.url c6Info.size c6Info.normalizedBody)).status = false ∧
    upload c6Env (FileBody.blob c6Blob) =
      (.error (.api (NoCloudAPIError.fromStatus 500 "Failed to upload file to R2: boom")),
        [mkPutRequest c6Sur.url c6Info.size c6Info.normalizedBody]) :=
  ⟨rfl, rfl, rfl,
    (upload_putFailure c6Env (FileBody.blob c6Blob) c6Info c6Sur rfl rfl rfl).1⟩

/-- A greedy character run stops exactly at the first failing character. -/
theorem takeWhile_append_middle (p : Char → Bool) :
    ∀ (xs : List Char) (y : Char) (ys : List Char),
      (∀ c ∈ xs, p c = true) → p y = false →
      (xs ++ y :: ys).takeWhile p = xs := by
  intro xs
  induction xs with
  | nil =>
    intro y ys _ hy
    simp [List.takeWhile_cons, hy]
  | cons x rest ih =>
    intro y ys hall hy
    have hx : p x = true := hall x (List.mem_cons_self x rest)
    simp only [List.cons_append, List.takeWhile_cons, hx, if_true]
    rw [ih y ys (fun c hc => hall c (List.mem_cons_of_mem x hc)) hy]

/-- C9. For every nonempty media type containing neither a semicolon nor a
comma, and every payload, detection on the data URL made of them returns the
media type verbatim, without consulting the signature table — whatever the
payload is, including payloads that themselves match a table signature. -/
theorem dataUrl_precedence (t p : String) (ht : t.data ≠ [])
    (hc : ∀ c ∈ t.data, c ≠ ';' ∧ c ≠ ',') :
    detectBase64MimeType ("data:" ++ t ++ ";base64," ++ p) = some t := by
  have hcb : ∀ c ∈ t.data, (fun c => !(c = ';' || c = ',')) c = true := by
    intro c hcm
    simp [(hc c hcm).1, (hc c hcm).2]
  have hdata : ("data:" ++ t ++ ";base64," ++ p).data
      = "data:".data ++ (t.data ++ (';' :: ("base64,".data ++ p.data))) := by
    simp only [String.data_append, List.append_assoc]
    rfl
  have hpre : "data:".data.isPrefixOf
      ("data:".data ++ (t.data ++ (';' :: ("base64,".data ++ p.data)))) = true :=
    List.isPrefixOf_iff_prefix.mpr (List.prefix_append _ _)
  have hdrop : ("data:".data ++ (t.data ++ (';' :: ("base64,".data ++ p.data)))).drop 5
      = t.data ++ (';' :: ("base64,".data ++ p.data)) := by
    have h5 : ("data:".data).length = 5 := rfl
    rw [← h5, List.drop_left]
  have htw : (t.data ++ (';' :: ("base64,".data ++ p.data))).takeWhile
      (fun c => !(c = ';' || c = ',')) = t.data :=
    takeWhile_append_middle _ t.data ';' _ hcb (by decide)
  have hne : t.data.isEmpty = false := by
    cases ht2 : t.data with
    | nil => exact absurd ht2 ht
    | cons a l => rfl
  have hmime : dataUrlMime ("data:" ++ t ++ ";base64," ++ p) = some t := by
    simp only [dataUrlMime, hdata, hpre, if_true, hdrop, htw, hne,
      Bool.false_eq_true, if_false]
  simp only [detectBase64MimeType, hmime]

/-- Witness for C9 at the PDF scenario of the specification: the data URL
declares application/pdf and wins although the payload itself matches the
JVBERi0 signature of the table. -/
theorem dataUrl_precedence_witness :
    ("application/pdf".data ≠ []) ∧
    (∀ c ∈ "application/pdf".data, c ≠ ';' ∧ c ≠ ',') ∧
    detectBase64MimeType "data:application/pdf;base64,JVBERi0xLjQ" = some "application/pdf" ∧
    findSignature BASE64_SIGNATURES "JVBERi0xLjQ" = some "application/pdf" :=
  ⟨by decide, by decide,
    dataUrl_precedence "application/pdf" "JVBERi0xLjQ" (by decide) (by decide),
    by decide⟩

/-- C10. Whenever a string does not match the full data-URL-with-base64
pattern, extractBase64Data returns it unchanged; in particular, for the
input data:text/plain,hello — a data URL without the base64 marker — MIME
detection still reports text/plain, so body inspection routes the input to
the base64-decoding branch with the entire original string (data: prefix
included) as decoder input, where the decode then fails, instead of falling
back to plain-text handling. -/
theorem extract_passthrough (s : String) (h : dataUrlBase64Payload s = none) :
    extractBase64Data s = s ∧
    detectBase64MimeType "data:text/plain,hello" = some "text/plain" ∧
    extractBase64Data "data:text/plain,hello" = "data:text/plain,hello" ∧
    getBodyInfo (FileBody.str "data:text/plain,hello") = .error .atobThrew := by
  refine ⟨?_, by decide, by decide, rfl⟩
  simp only [extractBase64Data, h]

/-- Witness for C10 at the concrete input data:text/plain,hello, which does
not match the extraction pattern. -/
theorem extract_passthrough_witness :
    dataUrlBase64Payload "data:text/plain,hello" = none ∧
    (extractBase64Data "data:text/plain,hello" = "data:text/plain,hello" ∧
      detectBase64MimeType "data:text/plain,hello" = some "text/plain" ∧
      extractBase64Data "data:text/plain,hello" = "data:text/plain,hello" ∧
      getBodyInfo (FileBody.str "data:text/plain,hello") = .error .atobThrew) :=
  ⟨by decide, extract_passthrough "data:text/plain,hello" (by decide)⟩

/-- Unfolding of the batch partition: the first batch is the first 100 ids
and the rest is the partition of the remaining ids. -/
theorem toBatches_eq (ids : List String) :
    toBatches ids = if ids.length = 0 then []
      else ids.take 100 :: toBatches (ids.drop 100) := by
  have hbs : BATCH_SIZE = 100 := rfl
  by_cases h0 : ids.length = 0
  · rw [if_pos h0, toBatches, hbs, h0]
    rfl
  · rw [if_neg h0]
    by_cases h1 : ids.length ≤ 100
    · have hk : (ids.length + 100 - 1) / 100 = 1 := by omega
      rw [List.drop_eq_nil_of_le h1]
      have hnil : toBatches ([] : List String) = [] := rfl
      have hr1 : List.range 1 = [0] := rfl
      rw [hnil, toBatches, hbs, hk, hr1, List.map_cons, List.map_nil]
      simp only [Nat.zero_mul, Nat.zero_add, List.drop_zero, Nat.sub_zero]
      rw [Nat.min_eq_right h1, List.take_length, List.take_of_length_le h1]
    · have hgt : 100 < ids.length := by omega
      have hk : (ids.length + 100 - 1) / 100 = ((ids.length - 100) + 100 - 1) / 100 + 1 := by
        omega
      rw [toBatches, hbs, hk, List.range_succ_eq_map, List.map_cons, List.map_map]
      congr 1
      · simp only [Nat.zero_mul, Nat.zero_add, List.drop_zero, Nat.sub_zero]
        rw [Nat.min_eq_left (by omega)]
      · rw [toBatches, hbs, List.length_drop]
        apply List.map_congr_left
        intro i hi
        simp only [Function.comp_apply]
        rw [List.drop_drop]
        have h100 : (i + 1) * 100 = 100 + i * 100 := by ring
        rw [h100]
        congr 1
        omega

/-- Concatenating the batches gives back the original id collection. -/
theorem toBatches_flatten_aux : ∀ (n : Nat) (ids : List String), ids.length = n →
    (toBatches ids).flatten = ids := by
  intro n
  induction n using Nat.strong_induction_on with
  | _ n ih =>
    intro ids hlen
    rw [toBatches_eq]
    by_cases h0 : ids.length = 0
    · rw [if_pos h0]
      rw [List.length_eq_zero] at h0
      rw [h0]
      rfl
    · rw [if_neg h0, List.flatten_cons]
      rw [ih (ids.drop 100).length (by rw [List.length_drop]; omega) (ids.drop 100) rfl]
      exact List.take_append_drop 100 ids

/-- Concatenating the batches gives back the original id collection. -/
theorem toBatches_flatten (ids : List String) : (toBatches ids).flatten = ids :=
  toBatches_flatten_aux ids.length ids rfl

/-- The number of batches is the id count divided by 100, rounded up. -/
theorem toBatches_count (ids : List String) :
    (toBatches ids).length = (ids.length + 99) / 100 := by
  rw [toBatches, List.length_map, List.length_range]
  have hbs : BATCH_SIZE = 100 := rfl
  rw [hbs]
  omega

/-- Every batch before the last one holds exactly 100 ids. -/
theorem toBatches_full_batches (ids : List String) (i : Nat)
    (hi : i + 1 < (toBatches ids).length) :
    ((toBatches ids).get ⟨i, Nat.lt_of_succ_lt hi⟩).length = 100 := by
  have hbs : BATCH_SIZE = 100 := rfl
  simp only [List.get_eq_getElem, toBatches, hbs, List.getElem_map, List.getElem_range,
    List.length_take, List.length_drop]
  rw [toBatches_count] at hi
  omega

/-- A run over batches that all succeed returns success and issues exactly
one bulk call per batch, in order. -/
theorem runBatches_all_ok (env : DeleteEnv) : ∀ (bs : List (List String)),
    (∀ b ∈ bs, env.bulk b = .ok ()) →
    runBatches env bs = (.ok (), bs.map DeleteCall.bulk) := by
  intro bs
  induction bs with
  | nil => intro _; rfl
  | cons b rest ih =>
    intro hall
    have hb : env.bulk b = .ok () := hall b (List.mem_cons_self b rest)
    have ih2 := ih (fun x hx => hall x (List.mem_cons_of_mem b hx))
    simp only [runBatches, hb, ih2, List.map_cons]

/-- A run whose batch k fails (all earlier batches succeeding) stops at
batch k: it returns that error and the trace holds exactly batches 0
through k. -/
theorem runBatches_failFast (env : DeleteEnv) : ∀ (bs : List (List String)) (k : Nat)
    (hk : k < bs.length) (e : NoCloudAPIError),
    (∀ j (hj : j < k), env.bulk (bs.get ⟨j, Nat.lt_trans hj hk⟩) = .ok ()) →
    env.bulk (bs.get ⟨k, hk⟩) = .error e →
    runBatches env bs = (.error e, (bs.take k).map DeleteCall.bulk ++
      [DeleteCall.bulk (bs.get ⟨k, hk⟩)]) := by
  intro bs
  induction bs with
  | nil => intro k hk; simp at hk
  | cons b rest ih =>
    intro k hk e hok herr
    cases k with
    | zero =>
      have herr2 : env.bulk b = .error e := by simpa using herr
      simp [runBatches, herr2]
    | succ k =>
      have hb : env.bulk b = .ok () := by
        have := hok 0 (Nat.succ_pos k)
        simpa using this
      have hk2 : k < rest.length := Nat.lt_of_succ_lt_succ hk
      have ih2 := ih k hk2 e (fun j hj => by simpa using hok (j + 1) (Nat.succ_lt_succ hj))
        (by simpa using herr)
      simp [runBatches, hb, ih2]

/-- C3. In every environment whose bulk round trips succeed: deleting an
empty collection issues no call and succeeds; deleting a one-element
collection issues the single-id call (not a bulk call); and deleting a
collection of two or more ids issues one bulk call per batch, strictly
sequentially in batch order, where the batches partition the ids into
ceil(n/100) consecutive groups, each group before the last holding exactly
100 ids, and concatenating the groups in order gives back the collection
(so the last group holds the remainder). -/
theorem delete_partition (env : DeleteEnv) (ids : List String)
    (hb : ∀ b ∈ toBatches ids, env.bulk b = .ok ()) :
    (ids = [] → deleteOp env (.inr ids) = (.ok (), [])) ∧
    (∀ x, ids = [x] → deleteOp env (.inr ids) = (env.single x, [DeleteCall.single x])) ∧
    (2 ≤ ids.length →
      deleteOp env (.inr ids) = (.ok (), (toBatches ids).map DeleteCall.bulk) ∧
      (toBatches ids).length = (ids.length + 99) / 100 ∧
      (∀ i, (hi : i + 1 < (toBatches ids).length) →
        ((toBatches ids).get ⟨i, Nat.lt_of_succ_lt hi⟩).length = 100) ∧
      (toBatches ids).flatten = ids) := by
  refine ⟨?_, ?_, ?_⟩
  · intro h
    subst h
    rfl
  · intro x h
    subst h
    rfl
  · intro h2
    refine ⟨?_, toBatches_count ids,
      fun i hi => toBatches_full_batches ids i hi, toBatches_flatten ids⟩
    rcases ids with _ | ⟨a, _ | ⟨b, t⟩⟩
    · simp at h2
    · simp at h2
    · show runBatches env (toBatches (a :: b :: t)) = _
      exact runBatches_all_ok env _ hb

set_option maxRecDepth 10000 in
/-- Witness for C3 at a 250-id collection in an all-success environment:
exactly 3 sequential bulk calls of sizes 100, 100 and 50, in that order. -/
theorem delete_partition_witness :
    (∀ b ∈ toBatches c3Ids, c3Env.bulk b = .ok ()) ∧
    (2 ≤ c3Ids.length) ∧
    deleteOp c3Env (.inr c3Ids) = (.ok (), (toBatches c3Ids).map DeleteCall.bulk) ∧
    (toBatches c3Ids).map List.length = [100, 100, 50] :=
  ⟨fun b _ => rfl, by decide,
    ((delete_partition c3Env c3Ids (fun b _ => rfl)).2.2 (by decide)).1, rfl⟩

set_option maxRecDepth 10000 in
/-- Bound used by the fail-fast witness: a 250-id collection has 3 batches. -/
theorem c7_hk : 2 < (toBatches c7Ids).length := by decide

/-- C7. For every collection of two or more ids and every batch index k, if
the bulk requests of all batches before k succeed and the bulk request of
batch k fails with error e, the delete operation returns exactly that error
and its trace holds exactly the bulk calls for batches 0 through k, in
order: no bulk request is issued for any batch after k, the batches before
k are each issued exactly once (no retry, no rollback), and no per-batch
aggregate result is produced — the outcome is just the propagated error. -/
theorem delete_failFast (env : DeleteEnv) (ids : List String) (k : Nat)
    (hk : k < (toBatches ids).length) (e : NoCloudAPIError)
    (h2 : 2 ≤ ids.length)
    (hok : ∀ j (hj : j < k), env.bulk ((toBatches ids).get ⟨j, Nat.lt_trans hj hk⟩) = .ok ())
    (herr : env.bulk ((toBatches ids).get ⟨k, hk⟩) = .error e) :
    deleteOp env (.inr ids) =
      (.error e, ((toBatches ids).take k).map DeleteCall.bulk ++
        [DeleteCall.bulk ((toBatches ids).get ⟨k, hk⟩)]) := by
  rcases ids with _ | ⟨a, _ | ⟨b, t⟩⟩
  · simp at h2
  · simp at h2
  · show runBatches env (toBatches (a :: b :: t)) = _
    exact runBatches_failFast env _ k hk e hok herr

set_option maxRecDepth 10000 in
/-- Witness for C7 at a 250-id collection whose third batch (the 50-element
one) is rejected: the delete fails with that error after issuing exactly the
three bulk calls. -/
theorem delete_failFast_witness :
    (2 ≤ c7Ids.length) ∧
    c7Env.bulk ((toBatches c7Ids).get ⟨2, c7_hk⟩) = .error c7Err ∧
    deleteOp c7Env (.inr c7Ids) =
      (.error c7Err, ((toBatches c7Ids).take 2).map DeleteCall.bulk ++
        [DeleteCall.bulk ((toBatches c7Ids).get ⟨2, c7_hk⟩)]) :=
  ⟨by decide, rfl,
    delete_failFast c7Env c7Ids 2 c7_hk c7Err (by decide)
      (by intro j hj; interval_cases j <;> rfl) rfl⟩
